import Mathlib

/-!
Verification of the multi-cluster service-export cache of istio-experimental,
together with the gRPC-style status helpers (pkg/mcp/status/status.go) and the
Envoy config wait helper (pkg/test/framework/components/echo/common/envoy.go).

The service-export cache implementation itself (serviceExportCacheImpl and
IstioEndpoint.IsDiscoverableFromProxy) is not present among the provided source
files; only its test suite is. The definitions for that component are therefore
modelled from the specification (sections 4.1 to 4.3) and each carries a doc
comment saying so. The status and envoy definitions are translated directly
from their Go sources.
-/

/- ### Discoverability Policy (spec section 4.1) -/

/-- Modelled from the spec: the Discoverability Policy
`Visible(originCluster, exported, clusterLocalOverride, mcsEnabled, requestingCluster)`
of section 4.1; the Go implementation (IstioEndpoint.IsDiscoverableFromProxy and the
policies installed by the service-export cache) is not among the provided sources.
Rules, evaluated in order: same cluster is always visible; otherwise, if MCS discovery
is disabled or the cluster-local override is set, not visible; otherwise visible
iff exported. -/
def Visible (originCluster : String) (exported clusterLocalOverride mcsEnabled : Bool)
    (requestingCluster : String) : Bool :=
  if requestingCluster = originCluster then true
  else if !mcsEnabled || clusterLocalOverride then false
  else exported

/- ### Export State Store (spec section 4.2) -/

/-- A service identity: a (namespace, name) pair, as in
`types.NamespacedName` used by the test suite. -/
structure NamespacedName where
  ns : String
  name : String
deriving DecidableEq

/-- Association-list lookup for records keyed by service identity. -/
def findRecord : List (NamespacedName × Bool) → NamespacedName → Option Bool
  | [], _ => none
  | (k, v) :: tl, s => if k = s then some v else findRecord tl s

/-- Remove every record for the given service identity. -/
def removeKey : List (NamespacedName × Bool) → NamespacedName → List (NamespacedName × Bool)
  | [], _ => []
  | (k, v) :: tl, s => if k = s then removeKey tl s else (k, v) :: removeKey tl s

/-- Modelled from the spec: the Export State Store of section 4.2, a mapping from
service identity to an exported flag; the Go implementation (the map inside
serviceExportCacheImpl) is not among the provided sources. -/
structure ExportStore where
  records : List (NamespacedName × Bool)
deriving DecidableEq

/-- The current export record value for a service: `some b` when a record exists,
`none` when the service is unknown. -/
def exportedVal (st : ExportStore) (s : NamespacedName) : Option Bool :=
  findRecord st.records s

/-- Modelled from the spec: `IsExported(serviceIdentity)` returns the current
value, or false if unknown (fail-safe default, spec sections 4.2 and 7). -/
def IsExported (st : ExportStore) (s : NamespacedName) : Bool :=
  (exportedVal st s).getD false

/-- Modelled from the spec: `SetExported(serviceIdentity, exported)` atomically sets
the flag and returns whether the value actually changed from its prior state,
counting the transition from unknown to a concrete value as a change
(spec section 4.2). -/
def SetExported (st : ExportStore) (s : NamespacedName) (e : Bool) : ExportStore × Bool :=
  (⟨(s, e) :: removeKey st.records s⟩,
   if findRecord st.records s = some e then false else true)

/-- Modelled from the spec: `Remove(serviceIdentity)` drops the record entirely,
with post-condition equivalent to `IsExported == false` (spec section 4.2); the
reported change is whether the observable exported value changed, so that no push
is emitted for a no-op transition (spec P6). -/
def Remove (st : ExportStore) (s : NamespacedName) : ExportStore × Bool :=
  (⟨removeKey st.records s⟩, IsExported st s)

/-- Modelled from the spec: cache state joining the Export State Store with a count
of push signals handed to the Change Notifier, which (section 4.3) is invoked
exactly when `SetExported`/`Remove` report a change. -/
structure SEC where
  store : ExportStore
  pushes : Nat
deriving DecidableEq

/-- Apply `SetExported` and emit one push signal iff the value changed. -/
def SEC.setExported (c : SEC) (s : NamespacedName) (e : Bool) : SEC × Bool :=
  let r := SetExported c.store s e
  (⟨r.1, c.pushes + (if r.2 then 1 else 0)⟩, r.2)

/-- Apply `Remove` and emit one push signal iff the observable value changed. -/
def SEC.remove (c : SEC) (s : NamespacedName) : SEC × Bool :=
  let r := Remove c.store s
  (⟨r.1, c.pushes + (if r.2 then 1 else 0)⟩, r.2)

/- ### Store lemmas -/

theorem findRecord_removeKey (l : List (NamespacedName × Bool)) (s : NamespacedName) :
    findRecord (removeKey l s) s = none := by
  induction l with
  | nil => rfl
  | cons hd tl ih =>
    obtain ⟨k, v⟩ := hd
    by_cases hk : k = s
    · simp [removeKey, hk, ih]
    · simp [removeKey, findRecord, hk, ih]

theorem IsExported_setExported (st : ExportStore) (s : NamespacedName) (e : Bool) :
    IsExported (SetExported st s e).1 s = e := by
  simp [IsExported, exportedVal, SetExported, findRecord]

theorem IsExported_remove (st : ExportStore) (s : NamespacedName) :
    IsExported (Remove st s).1 s = false := by
  simp [IsExported, exportedVal, Remove, findRecord_removeKey]

theorem setExported_changed_of_not_exported (st : ExportStore) (s : NamespacedName)
    (h : IsExported st s = false) : (SetExported st s true).2 = true := by
  unfold IsExported exportedVal at h
  unfold SetExported
  cases hf : findRecord st.records s with
  | none => simp [hf]
  | some b =>
    rw [hf] at h
    simp only [Option.getD_some] at h
    simp [hf, h]

/- ### Claim theorems C1 to C4 -/

/-- Claim C1 (same-cluster invariant): for every endpoint and every requesting proxy
in the endpoint's own origin cluster, the Discoverability Policy verdict is visible,
for every value of the exported flag and of both global switches. -/
theorem same_cluster_invariant (originCluster : String)
    (exported clusterLocalOverride mcsEnabled : Bool) :
    Visible originCluster exported clusterLocalOverride mcsEnabled originCluster = true := by
  simp [Visible]

/-- Claim C2 (export grants cross-cluster visibility): after `SetExported(S, true)`,
with MCS discovery enabled and no cluster-local override, the service reads as
exported and every proxy in a different cluster gets a visible verdict. -/
theorem export_grants_cross_cluster (st : ExportStore) (s : NamespacedName)
    (originCluster requestingCluster : String)
    (h : requestingCluster ≠ originCluster) :
    IsExported (SetExported st s true).1 s = true ∧
    Visible originCluster (IsExported (SetExported st s true).1 s) false true
      requestingCluster = true := by
  have he := IsExported_setExported st s true
  refine ⟨he, ?_⟩
  rw [he]
  simp [Visible, h]

/-- Claim C3 (override suppresses export): with the cluster-local override set, a
service whose exported flag is true is still invisible to every proxy in a
different cluster, for both values of the MCS switch. -/
theorem override_suppresses_export (originCluster requestingCluster : String)
    (mcsEnabled : Bool) (h : requestingCluster ≠ originCluster) :
    Visible originCluster true true mcsEnabled requestingCluster = false := by
  simp [Visible, h]

/-- Claim C4 (fail-safe default): a service with no export record reads as not
exported, and every proxy in a different cluster gets an invisible verdict for
every value of both global switches; the query is total, not an error. -/
theorem fail_safe_default (st : ExportStore) (s : NamespacedName)
    (hrec : exportedVal st s = none)
    (originCluster requestingCluster : String)
    (clusterLocalOverride mcsEnabled : Bool)
    (h : requestingCluster ≠ originCluster) :
    IsExported st s = false ∧
    Visible originCluster (IsExported st s) clusterLocalOverride mcsEnabled
      requestingCluster = false := by
  have he : IsExported st s = false := by simp [IsExported, hrec]
  refine ⟨he, ?_⟩
  rw [he]
  by_cases hm : mcsEnabled <;> by_cases hc : clusterLocalOverride <;>
    simp [Visible, h, hm, hc]

/- ### Concrete identities used by the witnesses (mirroring the test constants) -/

def svcId : NamespacedName := ⟨"test-ns", "test-svc"⟩

def testClusterId : String := "test-cluster"

def otherClusterId : String := "some-other-cluster"

/-- Witness for C2 at the test suite's concrete identifiers. -/
theorem export_grants_cross_cluster_witness :
    otherClusterId ≠ testClusterId ∧
    (IsExported (SetExported ⟨[]⟩ svcId true).1 svcId = true ∧
     Visible testClusterId (IsExported (SetExported ⟨[]⟩ svcId true).1 svcId) false true
       otherClusterId = true) :=
  ⟨by decide, export_grants_cross_cluster ⟨[]⟩ svcId testClusterId otherClusterId (by decide)⟩

/-- Witness for C3 at the test suite's concrete identifiers. -/
theorem override_suppresses_export_witness :
    otherClusterId ≠ testClusterId ∧
    Visible testClusterId true true true otherClusterId = false :=
  ⟨by decide, override_suppresses_export testClusterId otherClusterId true (by decide)⟩

/-- Witness for C4 on the empty store at the test suite's concrete identifiers. -/
theorem fail_safe_default_witness :
    exportedVal ⟨[]⟩ svcId = none ∧ otherClusterId ≠ testClusterId ∧
    (IsExported ⟨[]⟩ svcId = false ∧
     Visible testClusterId (IsExported ⟨[]⟩ svcId) true false otherClusterId = false) :=
  ⟨rfl, by decide, fail_safe_default ⟨[]⟩ svcId rfl testClusterId otherClusterId true false
    (by decide)⟩

/- ### Claim theorems C5, C6, C8 -/

/-- Claim C5 (revocation round-trip): from a cluster-local state, `SetExported(S,true)`
followed by `Remove(S)` (or by `SetExported(S,false)`) restores `IsExported == false`,
cross-cluster proxies again get an invisible verdict, exactly two push signals are
emitted by the pair, and a further no-op `Remove` emits none. -/
theorem revocation_round_trip (c : SEC) (s : NamespacedName)
    (h : IsExported c.store s = false) :
    IsExported (((c.setExported s true).1.remove s).1).store s = false ∧
    (((c.setExported s true).1.remove s).1).pushes = c.pushes + 2 ∧
    IsExported (((c.setExported s true).1.setExported s false).1).store s = false ∧
    (((c.setExported s true).1.setExported s false).1).pushes = c.pushes + 2 ∧
    ((((c.setExported s true).1.remove s).1).remove s).1.pushes = c.pushes + 2 ∧
    (∀ (originCluster requestingCluster : String) (clo mcs : Bool),
      requestingCluster ≠ originCluster →
      Visible originCluster (IsExported (((c.setExported s true).1.remove s).1).store s)
        clo mcs requestingCluster = false) := by
  have hch1 : (SetExported c.store s true).2 = true :=
    setExported_changed_of_not_exported c.store s h
  have he1 : IsExported (SetExported c.store s true).1 s = true :=
    IsExported_setExported c.store s true
  have hnt : ¬findRecord c.store.records s = some true := by
    intro hf
    unfold IsExported exportedVal at h
    rw [hf] at h
    simp at h
  have hfr : findRecord (SetExported c.store s true).1.records s = some true := by
    simp [SetExported, findRecord]
  have hch2 : (SetExported (SetExported c.store s true).1 s false).2 = true := by
    unfold SetExported at he1 ⊢
    unfold IsExported exportedVal at he1
    simp [findRecord] at he1 ⊢
  have hrm : IsExported (Remove (SetExported c.store s true).1 s).1 s = false :=
    IsExported_remove _ s
  constructor
  · simpa [SEC.setExported, SEC.remove] using hrm
  constructor
  · simp [SEC.setExported, SEC.remove, hch1, Remove, IsExported, exportedVal, hnt, hfr]
  constructor
  · simpa [SEC.setExported] using IsExported_setExported (SetExported c.store s true).1 s false
  constructor
  · simp [SEC.setExported, hch1, hch2]
  constructor
  · simp [SEC.setExported, SEC.remove, hch1, Remove, IsExported, exportedVal, hnt, hfr,
      findRecord_removeKey]
  · intro o r clo mcs hr
    have : IsExported (((c.setExported s true).1.remove s).1).store s = false := by
      simpa [SEC.setExported, SEC.remove] using hrm
    rw [this]
    by_cases hm : mcs <;> by_cases hc : clo <;> simp [Visible, hr, hm, hc]

/-- The empty cache: no export records, no pushes emitted yet. -/
def emptySEC : SEC := ⟨⟨[]⟩, 0⟩

/-- Witness for C5 on the empty cache at the test identity. -/
theorem revocation_round_trip_witness :
    IsExported emptySEC.store svcId = false ∧
    (IsExported (((emptySEC.setExported svcId true).1.remove svcId).1).store svcId = false ∧
     (((emptySEC.setExported svcId true).1.remove svcId).1).pushes = emptySEC.pushes + 2 ∧
     IsExported (((emptySEC.setExported svcId true).1.setExported svcId false).1).store svcId
        = false ∧
     (((emptySEC.setExported svcId true).1.setExported svcId false).1).pushes
        = emptySEC.pushes + 2 ∧
     ((((emptySEC.setExported svcId true).1.remove svcId).1).remove svcId).1.pushes
        = emptySEC.pushes + 2 ∧
     (∀ (originCluster requestingCluster : String) (clo mcs : Bool),
       requestingCluster ≠ originCluster →
       Visible originCluster
         (IsExported (((emptySEC.setExported svcId true).1.remove svcId).1).store svcId)
         clo mcs requestingCluster = false)) :=
  ⟨rfl, revocation_round_trip emptySEC svcId rfl⟩

/-- Claim C6 (idempotent set): from a not-exported state, two consecutive
`SetExported(S, true)` calls report changed then unchanged and emit exactly one
push signal; replaying `SetExported(S, true)` on an already-exported service is a
no-op with no new push. -/
theorem idempotent_set (c : SEC) (s : NamespacedName) :
    (IsExported c.store s = false →
      (c.setExported s true).2 = true ∧
      ((c.setExported s true).1.setExported s true).2 = false ∧
      ((c.setExported s true).1.setExported s true).1.pushes = c.pushes + 1) ∧
    (IsExported c.store s = true →
      (c.setExported s true).2 = false ∧
      (c.setExported s true).1.pushes = c.pushes) := by
  constructor
  · intro h
    have hch1 : (SetExported c.store s true).2 = true :=
      setExported_changed_of_not_exported c.store s h
    have hch2 : (SetExported (SetExported c.store s true).1 s true).2 = false := by
      unfold SetExported
      simp [findRecord]
    refine ⟨by simpa [SEC.setExported] using hch1, ?_, ?_⟩
    · simpa [SEC.setExported] using hch2
    · simp [SEC.setExported, hch1, hch2]
  · intro h
    have hv : findRecord c.store.records s = some true := by
      unfold IsExported exportedVal at h
      cases hf : findRecord c.store.records s with
      | none => rw [hf] at h; simp at h
      | some b => rw [hf] at h; simp at h; simp [h]
    have hch : (SetExported c.store s true).2 = false := by
      unfold SetExported
      simp [hv]
    exact ⟨by simpa [SEC.setExported] using hch, by simp [SEC.setExported, hch]⟩

/-- Witness for C6 on the empty cache at the test identity. -/
theorem idempotent_set_witness :
    IsExported emptySEC.store svcId = false ∧
    ((emptySEC.setExported svcId true).2 = true ∧
     ((emptySEC.setExported svcId true).1.setExported svcId true).2 = false ∧
     ((emptySEC.setExported svcId true).1.setExported svcId true).1.pushes
        = emptySEC.pushes + 1) :=
  ⟨rfl, (idempotent_set emptySEC svcId).1 rfl⟩

/- ### Change Notifier coalescing (spec sections 4.3, 5 and 9) -/

/-- Modelled from the spec: the Change Notifier's pending-push state, a single-slot
"pending signal per key" structure (spec section 9); the Go implementation is not
among the provided sources. Each entry pairs a service identity with the exported
flag of its pending push payload. -/
structure Notifier where
  pending : List (NamespacedName × Bool)
deriving DecidableEq

/-- Modelled from the spec: `OnExportChange(serviceIdentity, nowExported)` records a
pending push for the service with last-write-wins semantics, replacing any pending
push already queued for the same service (spec sections 4.3 and 5). -/
def OnExportChange (n : Notifier) (s : NamespacedName) (e : Bool) : Notifier :=
  ⟨(s, e) :: removeKey n.pending s⟩

/-- The payloads of all pending pushes held for a service. -/
def valuesFor : List (NamespacedName × Bool) → NamespacedName → List Bool
  | [], _ => []
  | (k, v) :: tl, s => if k = s then v :: valuesFor tl s else valuesFor tl s

/-- The pending push payloads for a service in the notifier. -/
def pendingFor (n : Notifier) (s : NamespacedName) : List Bool :=
  valuesFor n.pending s

/-- Feed a burst of exported-flag transitions for one service to the notifier. -/
def applyBurst (n : Notifier) (s : NamespacedName) (es : List Bool) : Notifier :=
  es.foldl (fun acc e => OnExportChange acc s e) n

theorem valuesFor_removeKey (l : List (NamespacedName × Bool)) (s : NamespacedName) :
    valuesFor (removeKey l s) s = [] := by
  induction l with
  | nil => rfl
  | cons hd tl ih =>
    obtain ⟨k, v⟩ := hd
    by_cases hk : k = s
    · simp [removeKey, hk, ih]
    · simp [removeKey, valuesFor, hk, ih]

theorem pendingFor_onExportChange (n : Notifier) (s : NamespacedName) (e : Bool) :
    pendingFor (OnExportChange n s e) s = [e] := by
  simp [pendingFor, OnExportChange, valuesFor, valuesFor_removeKey]

/-- Claim C7 (coalescing under burst): after any nonempty burst of exported-flag
transitions for one service, delivered before the push pipeline drains, the
notifier holds exactly one pending push for that service and its payload is the
final settled state; in particular a transition arriving while a push is pending
(any starting notifier state) updates the payload instead of queueing a second
push. -/
theorem coalescing_burst (n : Notifier) (s : NamespacedName) (es : List Bool)
    (h : es ≠ []) :
    pendingFor (applyBurst n s es) s = [es.getLast h] := by
  induction es generalizing n with
  | nil => exact absurd rfl h
  | cons e tl ih =>
    cases tl with
    | nil => simpa [applyBurst] using pendingFor_onExportChange n s e
    | cons e2 tl2 =>
      have hstep : applyBurst n s (e :: e2 :: tl2)
          = applyBurst (OnExportChange n s e) s (e2 :: tl2) := rfl
      rw [hstep, ih (OnExportChange n s e) (by simp)]
      simp [List.getLast_cons]

/-- Witness for C7: a burst of three alternating transitions leaves exactly one
pending push carrying the final state. -/
theorem coalescing_burst_witness :
    ([true, false, true] ≠ ([] : List Bool)) ∧
    pendingFor (applyBurst ⟨[]⟩ svcId [true, false, true]) svcId = [true] :=
  ⟨by simp, by
    have hc := coalescing_burst ⟨[]⟩ svcId [true, false, true] (by simp)
    exact hc⟩

/-- Claim C8 (determinism of the visibility verdict): two evaluations of the
Discoverability Policy on equal inputs return the same verdict; the verdict is a
function of exactly the five inputs, with no hidden state. -/
theorem visibility_deterministic (o1 o2 r1 r2 : String) (e1 e2 clo1 clo2 m1 m2 : Bool)
    (ho : o1 = o2) (he : e1 = e2) (hclo : clo1 = clo2) (hm : m1 = m2) (hr : r1 = r2) :
    Visible o1 e1 clo1 m1 r1 = Visible o2 e2 clo2 m2 r2 := by
  rw [ho, he, hclo, hm, hr]

/-- Witness for C8 at concrete inputs. -/
theorem visibility_deterministic_witness :
    Visible testClusterId true false true otherClusterId
      = Visible testClusterId true false true otherClusterId :=
  visibility_deterministic testClusterId testClusterId otherClusterId otherClusterId
    true true false false true true rfl rfl rfl rfl rfl

/- ### The status package (pkg/mcp/status/status.go) -/

namespace status

/-- Go conversion `int32(c)` of a `codes.Code` (a uint32): two's-complement
reinterpretation of the low 32 bits, as stored in the `Code int32` proto field. -/
def int32ofNat (c : Nat) : Int :=
  if (c : Int) % 2 ^ 32 < 2 ^ 31 then (c : Int) % 2 ^ 32 else (c : Int) % 2 ^ 32 - 2 ^ 32

/-- Go conversion `codes.Code(x)` of an int32 value back to a uint32. -/
def uint32ofInt (i : Int) : Nat :=
  (i % 2 ^ 32).toNat

/-- The `rpc.Status` proto message: a code, a message (details are irrelevant to
the claims and omitted as opaque). -/
structure RpcStatus where
  code : Int
  message : String
deriving DecidableEq

/-- Proto getter `p.GetCode()`: zero on a nil message pointer. -/
def rpcGetCode : Option RpcStatus → Int
  | none => 0
  | some p => p.code

/-- The `Status` struct wrapping a possibly-nil `*rpc.Status`. -/
structure Status where
  s : Option RpcStatus
deriving DecidableEq

/-- `codes.OK` is the zero code. -/
def codesOK : Nat := 0

/-- A Go error interface value produced by this package: either nil (`none`) or a
`*statusError` wrapping the status proto pointer. -/
inductive GoErr where
  | statusError (p : Option RpcStatus)
deriving DecidableEq

/-- Method `(s *Status) Code()`: `codes.OK` when the receiver or its proto pointer
is nil, otherwise `codes.Code(s.s.Code)`. -/
def Status.CodeOf : Option Status → Nat
  | none => codesOK
  | some st =>
    match st.s with
    | none => codesOK
    | some p => uint32ofInt p.code

/-- Method `(s *Status) Err()`: nil when `s.Code() == codes.OK`, otherwise the
`*statusError` cast of the proto pointer. -/
def Status.Err (s : Option Status) : Option GoErr :=
  if Status.CodeOf s = codesOK then none
  else some (GoErr.statusError (Option.bind s Status.s))

/-- `New(c, msg)`: a non-nil Status holding `&rpc.Status{Code: int32(c), Message: msg}`. -/
def New (c : Nat) (msg : String) : Option Status :=
  some ⟨some ⟨int32ofNat c, msg⟩⟩

/-- `Error(c, msg) = New(c, msg).Err()`. -/
def Error (c : Nat) (msg : String) : Option GoErr :=
  Status.Err (New c msg)

/-- The code carried by a `*statusError` through `GRPCStatus().Code()`:
the proto code converted back to a uint32 `codes.Code`. -/
def GoErr.grpcStatusCode : GoErr → Nat
  | .statusError p => uint32ofInt (rpcGetCode p)

/-- Package-level `Code(err)`: `codes.OK` for a nil error, otherwise the code of the
carried gRPC status (every error this package produces carries one). -/
def CodeOfErr : Option GoErr → Nat
  | none => codesOK
  | some ge => ge.grpcStatusCode

theorem uint32_int32_roundtrip (c : Nat) : uint32ofInt (int32ofNat c) = c % 2 ^ 32 := by
  unfold uint32ofInt int32ofNat
  split <;> omega

end status

/-- Claim C9 (status/error invariant): `Error(c, m)` is nil iff `c == codes.OK`;
`Status.Err()` is nil iff `Status.Code() == codes.OK`; and no non-nil error
produced by the package carries an OK code. -/
theorem status_ok_iff_nil (c : Nat) (m : String) (hc : c < 2 ^ 32) :
    (status.Error c m = none ↔ c = status.codesOK) ∧
    (∀ s : Option status.Status,
      status.Status.Err s = none ↔ status.Status.CodeOf s = status.codesOK) ∧
    (∀ s : Option status.Status,
      status.Status.Err s ≠ none → status.CodeOfErr (status.Status.Err s) ≠ status.codesOK) := by
  have herr : ∀ s : Option status.Status,
      status.Status.Err s = none ↔ status.Status.CodeOf s = status.codesOK := by
    intro s
    unfold status.Status.Err
    split <;> simp_all
  refine ⟨?_, herr, ?_⟩
  · unfold status.Error
    rw [herr (status.New c m)]
    have : status.Status.CodeOf (status.New c m) = c % 2 ^ 32 := by
      simp [status.Status.CodeOf, status.New, status.uint32_int32_roundtrip]
    rw [this]
    unfold status.codesOK
    omega
  · intro s hne
    have hcode : status.Status.CodeOf s ≠ status.codesOK := by
      intro hok
      exact hne ((herr s).mpr hok)
    cases s with
    | none => simp [status.Status.CodeOf] at hcode
    | some st =>
      cases hst : st.s with
      | none => simp [status.Status.CodeOf, hst] at hcode
      | some p =>
        have : status.Status.Err (some st)
            = some (status.GoErr.statusError (some p)) := by
          unfold status.Status.Err
          rw [if_neg hcode]
          simp [hst]
        rw [this]
        simp only [status.CodeOfErr, status.GoErr.grpcStatusCode, status.rpcGetCode]
        have : status.Status.CodeOf (some st) = status.uint32ofInt p.code := by
          simp [status.Status.CodeOf, hst]
        rw [this] at hcode
        exact hcode

/-- Witness for C9 at the concrete code 3 (InvalidArgument). -/
theorem status_ok_iff_nil_witness :
    (3 : Nat) < 2 ^ 32 ∧
    ((status.Error 3 "boom" = none ↔ (3 : Nat) = status.codesOK) ∧
     (∀ s : Option status.Status,
       status.Status.Err s = none ↔ status.Status.CodeOf s = status.codesOK) ∧
     (∀ s : Option status.Status,
       status.Status.Err s ≠ none →
         status.CodeOfErr (status.Status.Err s) ≠ status.codesOK)) :=
  ⟨by norm_num, status_ok_iff_nil 3 "boom" (by norm_num)⟩

/- ### WaitForConfig (pkg/test/framework/components/echo/common/envoy.go) -/

/-- The Envoy config dump, opaque to the wait logic; its marshalled form is kept as
a string for the error message. -/
structure ConfigDump where
  dump : String
deriving DecidableEq

/-- The outcome of one `fetch()` call: a config dump or an error message (on error
the returned dump pointer is nil). -/
inductive FetchResult where
  | ok (cfg : ConfigDump)
  | fetchErr (msg : String)
deriving DecidableEq

/-- Whether `sub` is a leading segment of the character list. -/
def startsWithChars : List Char → List Char → Bool
  | _, [] => true
  | [], _ :: _ => false
  | a :: as, b :: bs => a == b && startsWithChars as bs

/-- Whether `sub` occurs as a contiguous segment of the character list. -/
def containsChars : List Char → List Char → Bool
  | [], sub => sub.isEmpty
  | a :: as, sub => startsWithChars (a :: as) sub || containsChars as sub

/-- Go `strings.Contains(s, sub)`. -/
def strContains (s sub : String) : Bool :=
  containsChars s.data sub.data

/-- The first unrecoverable fetch-error marker in WaitForConfig. -/
def anyResolveMsg : String := "could not resolve Any message type"

/-- The second unrecoverable fetch-error marker in WaitForConfig. -/
def anyTypeMsg : String := "Any JSON doesn\x27t have \x27@type\x27"

/-- One iteration of the closure passed to `retry.Do` inside WaitForConfig: the
result is the `cfg` variable after the iteration, the `completed` flag, and the
returned error. A fetch error containing either unrecoverable marker completes
with a nil error; any other fetch error retries; an accept error retries; an
accepted config completes with a nil error; a rejected config completes with the
"envoy config rejected" error. -/
def waitAttempt (fr : FetchResult) (accept : ConfigDump → Bool × Option String) :
    Option ConfigDump × Bool × Option String :=
  match fr with
  | .fetchErr m =>
    if strContains m anyResolveMsg then (none, true, none)
    else if strContains m anyTypeMsg then (none, true, none)
    else (none, false, some m)
  | .ok cfg =>
    match accept cfg with
    | (_, some e) => (some cfg, false, some e)
    | (true, none) => (some cfg, true, none)
    | (false, none) => (some cfg, true, some "envoy config rejected")

/-- Modelled from the spec: the generic retry helper `retry.Do`
(pkg/test/util/retry, "generic retry/polling helpers" treated as out-of-scope
glue by the spec; its source is not among the provided files). It repeatedly runs
the attempt until one reports completed, returning that attempt's error, or until
the retry budget is exhausted, returning a timeout error; the last fetched config
is threaded through for the error message. -/
def retryDo (step : Nat → Option ConfigDump × Bool × Option String) :
    Nat → Nat → Option ConfigDump → Option ConfigDump × Option String
  | 0, _, last => (last, some "timed out while waiting")
  | fuel + 1, i, _ =>
    match step i with
    | (cfg, completed, err) =>
      if completed then (cfg, err) else retryDo step fuel (i + 1) cfg

/-- Marshalled form of the last config dump for the failure message ("nil" when no
config was fetched). -/
def configDumpStr : Option ConfigDump → String
  | none => "nil"
  | some c => c.dump

/-- `WaitForConfig(fetch, accept, options)`: run the retry loop over successive
fetch outcomes; on a nil error from the loop return nil, otherwise wrap the error
together with the last config dump. -/
def WaitForConfig (fetchSeq : Nat → FetchResult)
    (accept : ConfigDump → Bool × Option String) (fuel : Nat) : Option String :=
  match retryDo (fun i => waitAttempt (fetchSeq i) accept) fuel 0 none with
  | (_, none) => none
  | (cfgOpt, some e) =>
    some ("failed waiting for Envoy configuration: " ++ e ++ ". Last config_dump:\n"
      ++ configDumpStr cfgOpt)

/-- Claim C10 (WaitForConfig edge cases): a first fetch error whose message contains
either unrecoverable marker makes WaitForConfig return nil at once, for every
accept function (accept is never consulted) and every later fetch outcome; while a
first fetch that succeeds with a config the accept function rejects as
`(false, nil)` makes WaitForConfig return a non-nil error without further
retries. -/
theorem waitForConfig_edge_cases :
    (∀ (m : String) (fetchSeq : Nat → FetchResult)
       (accept : ConfigDump → Bool × Option String) (fuel : Nat),
      0 < fuel →
      (strContains m anyResolveMsg = true ∨ strContains m anyTypeMsg = true) →
      fetchSeq 0 = FetchResult.fetchErr m →
      WaitForConfig fetchSeq accept fuel = none) ∧
    (∀ (cfg : ConfigDump) (fetchSeq : Nat → FetchResult)
       (accept : ConfigDump → Bool × Option String) (fuel : Nat),
      0 < fuel →
      fetchSeq 0 = FetchResult.ok cfg →
      accept cfg = (false, none) →
      (WaitForConfig fetchSeq accept fuel).isSome = true) := by
  constructor
  · intro m fetchSeq accept fuel hfuel hmark hfetch
    obtain ⟨f, rfl⟩ : ∃ f, fuel = f + 1 := ⟨fuel - 1, by omega⟩
    have hstep : waitAttempt (fetchSeq 0) accept = (none, true, none) := by
      rw [hfetch]
      rcases hmark with h1 | h2
      · simp [waitAttempt, h1]
      · by_cases h1 : strContains m anyResolveMsg <;> simp [waitAttempt, h1, h2]
    unfold WaitForConfig retryDo
    rw [hstep]
    simp
  · intro cfg fetchSeq accept fuel hfuel hfetch haccept
    obtain ⟨f, rfl⟩ : ∃ f, fuel = f + 1 := ⟨fuel - 1, by omega⟩
    have hstep : waitAttempt (fetchSeq 0) accept
        = (some cfg, true, some "envoy config rejected") := by
      rw [hfetch]
      simp [waitAttempt, haccept]
    unfold WaitForConfig retryDo
    rw [hstep]
    simp

/-- Witness for C10 at concrete fetch and accept functions. -/
theorem waitForConfig_edge_cases_witness :
    (WaitForConfig (fun _ => FetchResult.fetchErr anyResolveMsg)
      (fun _ => (true, none)) 1 = none) ∧
    (WaitForConfig (fun _ => FetchResult.ok ⟨"dump"⟩)
      (fun _ => (false, none)) 1).isSome = true :=
  ⟨waitForConfig_edge_cases.1 anyResolveMsg (fun _ => FetchResult.fetchErr anyResolveMsg)
      (fun _ => (true, none)) 1 (by norm_num) (Or.inl (by decide)) rfl,
   waitForConfig_edge_cases.2 ⟨"dump"⟩ (fun _ => FetchResult.ok ⟨"dump"⟩)
      (fun _ => (false, none)) 1 (by norm_num) rfl rfl⟩
